import Mathlib

/-!
Shallow embedding of `src/index.js` of the `osjs-ace-application` repository:
an Ace-based text editor application for the OS.js web desktop.

The application is event-driven glue code.  We model:

* the embedded Ace editor widget's observable state (buffer text, theme,
  session mode id, cursor position);
* the hyperapp reactive UI state (`theme`, `mode`, `row`, `column`, `lines`);
* the process argument `proc.args.file` (the currently open file descriptor);
* the diagnostic console (`console.error` appends a line);
* virtual-filesystem calls as explicit request values: each request carries
  the operation and the `.then` / `.catch` continuations that the source
  registered on the returned promise (or `none` when the source registered
  nothing).  `settle` applies the outcome of the asynchronous call.

Asynchronous flows are split exactly as the source is: the body of an action
(hyperapp action / event listener) is the synchronous phase, returning the
updated state together with the VFS requests it issued; promise settlement is
a separate step applied to a request and an outcome.
-/

namespace AceApp

/-- A virtual-filesystem file descriptor.  The source only ever reads the
`path` property of the descriptors it passes around, so the model keeps just
that field. -/
structure VfsFile where
  path : String
deriving DecidableEq, Repr

/-- The hyperapp reactive state, from the initial state object of `app(...)`
in `createApplication` (`src/index.js` lines 79-85). -/
structure HState where
  theme : String
  mode : String
  row : Nat
  column : Nat
  lines : Nat
deriving DecidableEq, Repr

/-- Initial hyperapp state (`src/index.js` lines 79-85). -/
def initialState : HState :=
  { theme := "ace/theme/monokai", mode := "none", row := 0, column := 0, lines := 0 }

/-- Observable state of the embedded Ace editor widget: buffer contents
(`getValue`/`setValue`), theme, the session's current mode id
(`session.getMode().$id`), and the cursor position
(`selection.getCursor()`). -/
structure Editor where
  value : String
  theme : String
  modeId : String
  cursorRow : Nat
  cursorCol : Nat
deriving DecidableEq, Repr

/-- Embeds `editor.session.getLength()`: the number of document lines of the
buffer (a text with `n` newline characters has `n + 1` lines). -/
def sessionGetLength (ed : Editor) : Nat :=
  (ed.value.split (fun c => c = '\n')).length

/-- The whole application state visible to the glue code in
`createApplication`: the editor widget, the hyperapp state, `proc.args.file`,
and the diagnostic console (a list of logged error lines). -/
structure AppState where
  editor : Editor
  ui : HState
  procFile : Option VfsFile
  console : List String
deriving DecidableEq, Repr

/-- Embeds `const setText = contents => editor.setValue(contents);`
(`src/index.js` line 70). -/
def setText (contents : String) (s : AppState) : AppState :=
  { s with editor := { s.editor with value := contents } }

/-- Embeds `const getText = () => editor.getValue();` (`src/index.js` line 71). -/
def getText (s : AppState) : String :=
  s.editor.value

/-- Embeds `console.error(error)`: append the error to the diagnostic console.
No other part of the state is touched and nothing is shown to the user. -/
def consoleError (e : String) (s : AppState) : AppState :=
  { s with console := s.console ++ [e] }

/-- A virtual-filesystem operation as invoked by the application. -/
inductive VfsOp where
  | readfile (file : VfsFile)
  | writefile (file : VfsFile) (data : String)
deriving DecidableEq, Repr

/-- A virtual-filesystem request as issued by the application: the operation
together with the continuations the source attached to the returned promise.
`onThen` is the `.then(...)` handler (receiving the string result), `onCatch`
the `.catch(...)` handler (receiving the error); `none` means the source
attached no such handler. -/
structure VfsRequest where
  op : VfsOp
  onThen : Option (String → AppState → AppState)
  onCatch : Option (String → AppState → AppState)

/-- Settlement of an asynchronous VFS request: a successful result runs the
registered `.then` handler, a rejection runs the registered `.catch` handler;
an outcome with no registered handler leaves the application state alone. -/
def settle (r : VfsRequest) (result : Except String String) (s : AppState) : AppState :=
  match result with
  | Except.ok v =>
    match r.onThen with
    | some f => f v s
    | none => s
  | Except.error e =>
    match r.onCatch with
    | some f => f e s
    | none => s

/-- The `save` hyperapp action (`src/index.js` lines 93-97):

`if (proc.args.file) { vfs.writefile(proc.args.file, getText()); }`

The action returns `undefined` to hyperapp, so the reactive state is never
replaced; the write call has no `.then` and no `.catch`. -/
def save (s : AppState) : AppState × List VfsRequest :=
  match s.procFile with
  | some file =>
    (s, [{ op := VfsOp.writefile file (getText s), onThen := none, onCatch := none }])
  | none => (s, [])

/-! Modelling of the Ace `modelist` extension.

The `load` action calls `modelist.getModeForPath(item.path)` from the third-party
`brace/ext/modelist` extension of the embedded editor widget.  Modelled here
faithfully to that extension, restricted to the grammars relevant to this
application (the source imports the javascript, python, css and html modes):
the path's file name (the part after the last `/` or `\`) is matched
case-insensitively against `^.*\.(ext1|ext2|...)$` for each mode in turn, and
the first matching mode wins, defaulting to the plain-text mode. -/

/-- A character that is not a path separator (`/` or `\`). -/
def notSep (c : Char) : Bool :=
  !(c = '/' || c = '\\')

/-- Embeds `path.split(/[\/\\]/).pop()`: the file-name part of a path, i.e. the
longest separator-free tail. -/
def fileNamePart (p : List Char) : List Char :=
  ((p.reverse.takeWhile notSep).reverse)

/-- Case-insensitive match of a file name against the extension list of a
mode: the regex `^.*\.(e₁|e₂|...)$` with the `i` flag matches the file name
exactly when its lowercasing ends with `.eᵢ` for some extension `eᵢ`. -/
def supportsFile (exts : List String) (fileName : List Char) : Bool :=
  exts.any (fun e => List.isSuffixOf ('.' :: e.data) (fileName.map Char.toLower))

/-- The mode table of the modelist extension (mode id, extensions),
restricted to the grammars this application imports, in the extension's
match order. -/
def aceModes : List (String × List String) :=
  [("ace/mode/css", ["css"]),
   ("ace/mode/html", ["html", "htm", "xhtml"]),
   ("ace/mode/javascript", ["js", "jsm", "jsx"]),
   ("ace/mode/python", ["py"])]

/-- Embeds `modelist.getModeForPath(path).mode`: the mode id of the first mode
whose extension list matches the path's file name, defaulting to the
plain-text mode. -/
def getModeForPath (path : String) : String :=
  match aceModes.find? (fun m => supportsFile m.2 (fileNamePart path.data)) with
  | some m => m.1
  | none => "ace/mode/text"

/-- The `load` hyperapp action (`src/index.js` lines 99-106), registered as
the `open-file` handler (line 185):

```
const mode = modelist.getModeForPath(item.path);
editor.getSession().setMode(mode.mode);
vfs.readfile(item).then(setText).catch(error => console.error(error));
```

The synchronous phase sets the session mode and issues one read request
whose `.then` handler is `setText` and whose `.catch` handler logs to the
console. -/
def load (item : VfsFile) (s : AppState) : AppState × VfsRequest :=
  let s1 := { s with editor := { s.editor with modeId := getModeForPath item.path } }
  (s1, { op := VfsOp.readfile item,
         onThen := some (fun text t => setText text t),
         onCatch := some (fun e t => consoleError e t) })

/-- The `setStatus` hyperapp action (`src/index.js` line 86): merge the
given row, column, line count and mode into the reactive state. -/
def setStatus (row column lines : Nat) (mode : String) (ui : HState) : HState :=
  { ui with row := row, column := column, lines := lines, mode := mode }

/-- The `changeCursor` listener (`src/index.js` lines 156-161): read the
cursor position, the session length and the session mode id from the live
widget and call `setStatus` with them, synchronously. -/
def changeCursorListener (s : AppState) : AppState :=
  { s with ui := setStatus s.editor.cursorRow s.editor.cursorCol
                   (sessionGetLength s.editor) s.editor.modeId s.ui }

/-- Embeds `basic.on('new-file', () => setText(''))` (`src/index.js` line 183):
the registered handler for the helper's `new-file` event. -/
def onNewFile (s : AppState) : AppState :=
  setText "" s

/-- Modelled from the spec: `basic.createNew()` belongs to the host
basic-application helper, whose code is not part of this repository; per the
spec the helper exposes the new-file flow and emits the `new-file` event
consumed by this application, so `createNew` fires the registered
`new-file` handler. -/
def basicCreateNew (s : AppState) : AppState :=
  onNewFile s

/-- The `menuNew` hyperapp action (`src/index.js` line 129):
`basic.createNew()`. -/
def menuNew (s : AppState) : AppState :=
  basicCreateNew s

/-- The `menuSave` hyperapp action (`src/index.js` line 131): delegates to
the `save` action. -/
def menuSave (s : AppState) : AppState × List VfsRequest :=
  save s

/-- The five menu actions a file-menu entry can trigger. -/
inductive MenuAction where
  | actNew
  | actOpen
  | actSave
  | actSaveAs
  | actQuit
deriving DecidableEq, Repr

/-- One entry of a context menu: label, disabled flag and the action its
`onclick` invokes.  An entry whose source object has no `disabled` property
is not disabled (`disabled := false`). -/
structure MenuEntry where
  label : String
  disabled : Bool
  onclick : MenuAction
deriving DecidableEq, Repr

/-- Embeds `createFileMenu(current, actions, _)` (`src/index.js` lines 44-50):
the static file menu; only the Save entry carries a `disabled` property,
set to `!current`. -/
def createFileMenu (current : Option VfsFile) (tr : String → String) : List MenuEntry :=
  [{ label := tr "LBL_NEW", disabled := false, onclick := MenuAction.actNew },
   { label := tr "LBL_OPEN", disabled := false, onclick := MenuAction.actOpen },
   { label := tr "LBL_SAVE", disabled := current.isNone, onclick := MenuAction.actSave },
   { label := tr "LBL_SAVEAS", disabled := false, onclick := MenuAction.actSaveAs },
   { label := tr "LBL_QUIT", disabled := false, onclick := MenuAction.actQuit }]

/-- The `fileMenu` hyperapp action (`src/index.js` lines 108-113): show a
context menu built by `createFileMenu(proc.args.file, actions, _)`. -/
def fileMenu (s : AppState) (tr : String → String) : List MenuEntry :=
  createFileMenu s.procFile tr

/-- The data carried by a window `drop` event: whether the dropped item is a
file, and its MIME type (the empty string standing for an absent/empty,
i.e. falsy, MIME value). -/
structure DropData where
  isFile : Bool
  mime : String
deriving DecidableEq, Repr

/-- The window `drop` listener (`src/index.js` lines 175-182):

```
if (data.isFile && data.mime) {
  const found = proc.metadata.mimes.find(m => (new RegExp(m)).test(data.mime));
  if (found) { basic.open(data); }
}
```

`mimes` is the application metadata's MIME pattern list (from
`metadata.json`, which is not under `src/`), and `test m x` abstracts
`new RegExp(m).test(x)`.  `find` yields the first matching pattern itself,
and the match is acted on only when that pattern is truthy (a non-empty
string).  The result is `some data` exactly when `basic.open(data)` is
called, `none` when the drop is ignored. -/
def onDrop (mimes : List String) (test : String → String → Bool) (d : DropData) :
    Option DropData :=
  if d.isFile && d.mime ≠ "" then
    match mimes.find? (fun m => test m d.mime) with
    | some found => if found ≠ "" then some d else none
    | none => none
  else none


/-! Helper lemmas about the modelist path matching. -/

/-- A suffix of a path made of non-separator characters is also a suffix of
the path's file-name part. -/
theorem suffix_fileNamePart {suf p : List Char} (hs : suf <:+ p)
    (hne : ∀ c ∈ suf, notSep c = true) : suf <:+ fileNamePart p := by
  obtain ⟨t, rfl⟩ := hs
  unfold fileNamePart
  rw [List.reverse_append,
    List.takeWhile_append_of_pos (fun a ha => hne a (List.mem_reverse.mp ha)),
    List.reverse_append, List.reverse_reverse]
  exact List.suffix_append _ _

/-- If a (lowercased) file name ends in `.py`, it does not end in `.e` for
any extension `e` of length at least two other than `py`. -/
theorem isSuffixOf_eq_false_of_py (e g : List Char)
    (hg : ['.', 'p', 'y'] <:+ g) (hlen : 2 ≤ e.length)
    (hnot : ¬ ['.', 'p', 'y'] <:+ ('.' :: e)) :
    List.isSuffixOf ('.' :: e) g = false := by
  cases h : List.isSuffixOf ('.' :: e) g with
  | false => rfl
  | true =>
    have hsuf : ('.' :: e) <:+ g := List.isSuffixOf_iff_suffix.mp h
    exact absurd
      (List.suffix_of_suffix_length_le hg hsuf (by simp; omega)) hnot

/-- The modelist detects the Python grammar on any path ending in `.py`. -/
theorem getModeForPath_py (path : String)
    (hpy : ['.', 'p', 'y'] <:+ path.data) :
    getModeForPath path = "ace/mode/python" := by
  have hf : ['.', 'p', 'y'] <:+ fileNamePart path.data :=
    suffix_fileNamePart hpy (by decide)
  have hg : ['.', 'p', 'y'] <:+ (fileNamePart path.data).map Char.toLower := by
    have h1 := List.IsSuffix.map Char.toLower hf
    have h2 : List.map Char.toLower ['.', 'p', 'y'] = ['.', 'p', 'y'] := by decide
    rwa [h2] at h1
  have hcss : supportsFile ["css"] (fileNamePart path.data) = false := by
    simp only [supportsFile, List.any_cons, List.any_nil, Bool.or_false]
    exact isSuffixOf_eq_false_of_py _ _ hg (by decide) (by decide)
  have hhtml : supportsFile ["html", "htm", "xhtml"] (fileNamePart path.data) = false := by
    simp only [supportsFile, List.any_cons, List.any_nil, Bool.or_false,
      Bool.or_eq_false_iff]
    exact ⟨isSuffixOf_eq_false_of_py _ _ hg (by decide) (by decide),
      isSuffixOf_eq_false_of_py _ _ hg (by decide) (by decide),
      isSuffixOf_eq_false_of_py _ _ hg (by decide) (by decide)⟩
  have hjs : supportsFile ["js", "jsm", "jsx"] (fileNamePart path.data) = false := by
    simp only [supportsFile, List.any_cons, List.any_nil, Bool.or_false,
      Bool.or_eq_false_iff]
    exact ⟨isSuffixOf_eq_false_of_py _ _ hg (by decide) (by decide),
      isSuffixOf_eq_false_of_py _ _ hg (by decide) (by decide),
      isSuffixOf_eq_false_of_py _ _ hg (by decide) (by decide)⟩
  have hpymode : supportsFile ["py"] (fileNamePart path.data) = true := by
    simp only [supportsFile, List.any_cons, List.any_nil, Bool.or_false]
    exact List.isSuffixOf_iff_suffix.mpr hg
  unfold getModeForPath
  simp only [aceModes]
  rw [List.find?_cons_of_neg _ (by simpa using hcss),
    List.find?_cons_of_neg _ (by simpa using hhtml),
    List.find?_cons_of_neg _ (by simpa using hjs),
    List.find?_cons_of_pos _ (by simpa using hpymode)]

/-! Concrete sample states, used to instantiate theorems with hypotheses. -/

/-- A concrete editor widget state. -/
def ed0 : Editor :=
  { value := "hello", theme := "ace/theme/monokai", modeId := "none",
    cursorRow := 0, cursorCol := 0 }

/-- A concrete file descriptor. -/
def file0 : VfsFile :=
  { path := "New File.txt" }

/-- A concrete application state with no file open. -/
def st0 : AppState :=
  { editor := ed0, ui := initialState, procFile := none, console := [] }

/-- A concrete application state with `file0` open. -/
def st2 : AppState :=
  { editor := ed0, ui := initialState, procFile := some file0, console := [] }

/-! Theorems settling the specification claims. -/

/-- C1: invoking the save action while a file is open (`proc.args.file` set)
issues exactly one VFS `writefile` call, whose descriptor is the open file
and whose payload is exactly the editor's current buffer text (`getText()`). -/
theorem save_with_file_writes_buffer (s : AppState) (f : VfsFile)
    (h : s.procFile = some f) :
    (save s).2.map VfsRequest.op = [VfsOp.writefile f (getText s)] := by
  simp [save, h]

/-- Witness for C1: saving a concrete state with an open file issues exactly
the one write of the buffer text to that file. -/
theorem save_with_file_writes_buffer_witness :
    (save st2).2.map VfsRequest.op = [VfsOp.writefile file0 "hello"] :=
  save_with_file_writes_buffer st2 file0 rfl

/-- C2: invoking the save action with no file open (`proc.args.file` unset)
makes no VFS call at all, and the reactive UI state (theme, mode, row,
column, lines) is unchanged. -/
theorem save_without_file_noop (s : AppState) (h : s.procFile = none) :
    (save s).2 = [] ∧ (save s).1.ui = s.ui := by
  simp [save, h]

/-- Witness for C2: saving a concrete state with no open file issues no VFS
request and leaves the UI state alone. -/
theorem save_without_file_noop_witness :
    (save st0).2 = [] ∧ (save st0).1.ui = st0.ui :=
  save_without_file_noop st0 rfl

/-- C3: an open-file event for a descriptor whose path ends in `.py` makes
the load handler set the editor's syntax mode to the Python grammar (as
detected by the widget's modelist utility), and, when the read succeeds, the
editor's buffer becomes exactly the text returned by `vfs.readfile`. -/
theorem load_py_sets_python_mode (s : AppState) (item : VfsFile) (text : String)
    (hpy : ['.', 'p', 'y'] <:+ item.path.data) :
    (load item s).1.editor.modeId = "ace/mode/python" ∧
    (settle (load item s).2 (Except.ok text) (load item s).1).editor.value = text ∧
    (settle (load item s).2 (Except.ok text) (load item s).1).editor.modeId
      = "ace/mode/python" := by
  have h := getModeForPath_py item.path hpy
  exact ⟨h, rfl, h⟩

/-- Witness for C3: opening `main.py` with a successful read of
`print(42)` sets the Python mode and the buffer text. -/
theorem load_py_sets_python_mode_witness :
    (load { path := "main.py" } st0).1.editor.modeId = "ace/mode/python" ∧
    (settle (load { path := "main.py" } st0).2 (Except.ok "print(42)")
        (load { path := "main.py" } st0).1).editor.value = "print(42)" ∧
    (settle (load { path := "main.py" } st0).2 (Except.ok "print(42)")
        (load { path := "main.py" } st0).1).editor.modeId = "ace/mode/python" :=
  load_py_sets_python_mode st0 { path := "main.py" } "print(42)" (by decide)

/-- C4: when the read issued by the load handler fails, the editor's buffer
text is unchanged and the failed state is exactly the prior state with the
error appended to the diagnostic console — the error is only logged, nothing
else (in particular nothing user-facing) happens. -/
theorem load_read_failure_only_logs (s : AppState) (item : VfsFile) (e : String) :
    (settle (load item s).2 (Except.error e) (load item s).1).editor.value
        = s.editor.value ∧
    settle (load item s).2 (Except.error e) (load item s).1
        = consoleError e (load item s).1 :=
  ⟨rfl, rfl⟩

/-- C5: selecting "New" from the file menu ends with the editor buffer set
to the empty string, whatever it held before. -/
theorem menuNew_clears_buffer (s : AppState) :
    (menuNew s).editor.value = "" := rfl

/-- C6: the cursor-change listener updates the displayed status to exactly
the widget's live values: row and column from the cursor position, lines
from the session length, mode from the session's current mode id. -/
theorem changeCursor_syncs_status (s : AppState) :
    (changeCursorListener s).ui.row = s.editor.cursorRow ∧
    (changeCursorListener s).ui.column = s.editor.cursorCol ∧
    (changeCursorListener s).ui.lines = sessionGetLength s.editor ∧
    (changeCursorListener s).ui.mode = s.editor.modeId :=
  ⟨rfl, rfl, rfl, rfl⟩

/-- C7: any request issued by the save action carries no `.catch` handler,
so settling a write failure runs no application code at all: the state after
a failed write is the state before it. -/
theorem save_write_failure_unhandled (s : AppState) (r : VfsRequest)
    (hr : r ∈ (save s).2) :
    r.onCatch = none ∧ ∀ e t, settle r (Except.error e) t = t := by
  cases hps : s.procFile with
  | none => simp [save, hps] at hr
  | some f =>
    simp only [save, hps, List.mem_singleton] at hr
    subst hr
    exact ⟨rfl, fun e t => rfl⟩

/-- Witness for C7: the write request of a concrete save has no catch
handler and a concrete write failure leaves a concrete state unchanged. -/
theorem save_write_failure_unhandled_witness :
    ({ op := VfsOp.writefile file0 "hello", onThen := none, onCatch := none } :
        VfsRequest).onCatch = none ∧
    settle { op := VfsOp.writefile file0 "hello", onThen := none, onCatch := none }
        (Except.error "disk full") st0 = st0 :=
  ⟨(save_write_failure_unhandled st2 _ (List.mem_singleton.mpr rfl)).1,
    (save_write_failure_unhandled st2 _ (List.mem_singleton.mpr rfl)).2 "disk full" st0⟩

/-- C8: the load handler sets the detected syntax mode in its synchronous
phase, before the read settles; hence after a failed read the mode change
persists while the buffer is untouched. -/
theorem load_mode_set_before_read (s : AppState) (item : VfsFile) (e : String) :
    (load item s).1.editor.modeId = getModeForPath item.path ∧
    (settle (load item s).2 (Except.error e) (load item s).1).editor.modeId
        = getModeForPath item.path ∧
    (settle (load item s).2 (Except.error e) (load item s).1).editor.value
        = s.editor.value :=
  ⟨rfl, rfl, rfl⟩

/-- C9: a window drop is opened (via `basic.open`) exactly when the dropped
data is a file, carries a non-empty MIME type, and that MIME type matches at
least one pattern of the application metadata's MIME list; otherwise the
drop is ignored.  The MIME list is modelled as an arbitrary list of
non-empty regex patterns (a pattern is a non-trivial regex source string),
and regex matching is abstracted by `test`. -/
theorem drop_opens_iff_mime_match (mimes : List String)
    (test : String → String → Bool) (d : DropData)
    (hne : ∀ m ∈ mimes, m ≠ "") :
    onDrop mimes test d = some d ↔
      d.isFile = true ∧ d.mime ≠ "" ∧ ∃ m ∈ mimes, test m d.mime = true := by
  rcases d with ⟨isFile, mime⟩
  simp only [onDrop]
  cases isFile with
  | false => simp
  | true =>
    by_cases hm : mime = ""
    · subst hm; simp
    · rw [if_pos (by simp [hm])]
      cases hfind : mimes.find? (fun m => test m mime) with
      | none =>
        have hex : ¬ ∃ m ∈ mimes, test m mime = true := by
          rintro ⟨m, hmem, hp⟩
          have := List.find?_eq_none.mp hfind m hmem
          simp [hp] at this
        simp [hm, hex]
      | some m0 =>
        have hmem := List.mem_of_find?_eq_some hfind
        have hp : test m0 mime = true := by
          have := List.find?_some hfind
          simpa using this
        show (if m0 ≠ "" then some (⟨true, mime⟩ : DropData) else none)
            = some (⟨true, mime⟩ : DropData) ↔ _
        rw [if_pos (hne m0 hmem)]
        simp only [true_iff, iff_true]
        exact ⟨trivial, hm, m0, hmem, hp⟩

/-- Witness for C9: a concrete file drop whose MIME type matches the single
pattern of a concrete MIME list is opened. -/
theorem drop_opens_iff_mime_match_witness :
    onDrop ["text"] (fun m x => m == x) ⟨true, "text"⟩
        = some ⟨true, "text"⟩ ↔
      (⟨true, "text"⟩ : DropData).isFile = true ∧
      (⟨true, "text"⟩ : DropData).mime ≠ "" ∧
      ∃ m ∈ ["text"], (fun m x => m == x) m
          (⟨true, "text"⟩ : DropData).mime = true :=
  drop_opens_iff_mime_match ["text"] (fun m x => m == x) ⟨true, "text"⟩
    (by decide)

/-- C10: in the rendered file context menu, the Save entry is disabled
exactly when no file is open (`proc.args.file` unset), and the New, Open,
Save As and Quit entries are never disabled. -/
theorem fileMenu_disabled_policy (s : AppState) (tr : String → String)
    (e : MenuEntry) (he : e ∈ fileMenu s tr) :
    (e.onclick = MenuAction.actSave → e.disabled = s.procFile.isNone) ∧
    (e.onclick ≠ MenuAction.actSave → e.disabled = false) := by
  simp only [fileMenu, createFileMenu, List.mem_cons, List.not_mem_nil,
    or_false] at he
  rcases he with rfl | rfl | rfl | rfl | rfl <;> simp

/-- Witness for C10: in the file menu of a concrete state with an open file,
the Save entry is enabled (and it is the Save entry). -/
theorem fileMenu_disabled_policy_witness :
    (({ label := "LBL_SAVE", disabled := false, onclick := MenuAction.actSave } :
          MenuEntry).onclick = MenuAction.actSave →
        ({ label := "LBL_SAVE", disabled := false, onclick := MenuAction.actSave } :
          MenuEntry).disabled = st2.procFile.isNone) ∧
    (({ label := "LBL_SAVE", disabled := false, onclick := MenuAction.actSave } :
          MenuEntry).onclick ≠ MenuAction.actSave →
        ({ label := "LBL_SAVE", disabled := false, onclick := MenuAction.actSave } :
          MenuEntry).disabled = false) :=
  fileMenu_disabled_policy st2 (fun x => x) _ (by decide)

end AceApp
